import Mathlib

/-!
Verification of the focus-aware crop planner of `cut.py`.

The geometry of the planner (`calculate_crop_region`, the inline
center-crop fallback of `process_image`, the undersized-source dispatch,
the largest-face selection of `detect_faces`, and the per-image error
isolation of `bulk_process`) is embedded over `ℤ` and `ℚ`: Python's true
division `/ 2` is exact rational division on the half-integer values
arising here, and Python's `int()` conversion truncates toward zero,
which `pytrunc` models.
-/

/-- A rectangle `(x, y, w, h)`: integer origin and extent, as produced by
face/saliency detection or by the crop planner.  Detection output is not
required to lie inside the image. -/
structure Rect where
  x : ℤ
  y : ℤ
  w : ℤ
  h : ℤ
  deriving DecidableEq, Repr

/-- Python `int()` applied to a rational: truncation toward zero
(`⌈q⌉` for negative `q`, `⌊q⌋` otherwise). -/
def pytrunc (q : ℚ) : ℤ :=
  if q < 0 then ⌈q⌉ else ⌊q⌋

/-- `max lo (min v hi)`, the clamping idiom of `cut.py` lines 50-51
and 87-88. -/
def clamp (v lo hi : ℤ) : ℤ :=
  max lo (min v hi)

/-- `calculate_crop_region(focus_box, image_size, target_size)`
(`cut.py` lines 35-57): center of the focus box by real-number midpoint,
candidate origin by `int()` truncation, clamped into bounds, extent
`min(target, image)` in each dimension. -/
def calculate_crop_region (focus_box : Rect) (image_size target_size : ℤ × ℤ) : Rect :=
  let img_w := image_size.1
  let img_h := image_size.2
  let target_w := target_size.1
  let target_h := target_size.2
  let center_x : ℚ := (focus_box.x : ℚ) + (focus_box.w : ℚ) / 2
  let center_y : ℚ := (focus_box.y : ℚ) + (focus_box.h : ℚ) / 2
  let start_x := pytrunc (center_x - (target_w : ℚ) / 2)
  let start_y := pytrunc (center_y - (target_h : ℚ) / 2)
  let start_x := max 0 (min start_x (img_w - target_w))
  let start_y := max 0 (min start_y (img_h - target_h))
  let crop_w := min target_w img_w
  let crop_h := min target_h img_h
  ⟨start_x, start_y, crop_w, crop_h⟩

/-- The inline center-crop fallback of `process_image` (`cut.py` lines
81-89), used when no focus box was detected: center of the image,
candidate origin by `int()` truncation, clamped, extent exactly the
target size. -/
def center_crop_fallback (image_size target_size : ℤ × ℤ) : Rect :=
  let img_w := image_size.1
  let img_h := image_size.2
  let center_x : ℚ := (img_w : ℚ) / 2
  let center_y : ℚ := (img_h : ℚ) / 2
  let start_x := pytrunc (center_x - (target_size.1 : ℚ) / 2)
  let start_y := pytrunc (center_y - (target_size.2 : ℚ) / 2)
  let start_x := max 0 (min start_x (img_w - target_size.1))
  let start_y := max 0 (min start_y (img_h - target_size.2))
  ⟨start_x, start_y, target_size.1, target_size.2⟩

/-- The crop planner `plan_crop` of the spec, assembled exactly as
`process_image` dispatches it (`cut.py` lines 81-91): a detected subject
goes to `calculate_crop_region`, an absent subject to the inline
center-crop fallback. -/
def plan_crop (subject : Option Rect) (image_size target_size : ℤ × ℤ) : Rect :=
  match subject with
  | some focus => calculate_crop_region focus image_size target_size
  | none => center_crop_fallback image_size target_size

/-- `r` lies fully inside an image of width `W` and height `H`:
`0 ≤ x`, `0 ≤ y`, `x + w ≤ W`, `y + h ≤ H`. -/
def rect_in_bounds (r : Rect) (W H : ℤ) : Prop :=
  0 ≤ r.x ∧ 0 ≤ r.y ∧ r.x + r.w ≤ W ∧ r.y + r.h ≤ H

instance (r : Rect) (W H : ℤ) : Decidable (rect_in_bounds r W H) := by
  unfold rect_in_bounds; infer_instance

/-- Real-number x-coordinate of the center of a rectangle. -/
def rect_center_x (r : Rect) : ℚ := (r.x : ℚ) + (r.w : ℚ) / 2

/-- Real-number y-coordinate of the center of a rectangle. -/
def rect_center_y (r : Rect) : ℚ := (r.y : ℚ) + (r.h : ℚ) / 2

/-- Area `w * h` of a detected face rectangle, the key
`lambda x: x[2] * x[3]` of `cut.py` line 13. -/
def face_area (r : Rect) : ℤ := r.w * r.h

/-- Python's `max(faces, key=...)` over a nonempty list, split as first
element plus rest: keeps the earliest element of maximal area (Python
`max` only replaces the running best on a strictly larger key). -/
def max_face (first : Rect) (rest : List Rect) : Rect :=
  rest.foldl (fun best f => if face_area best < face_area f then f else best) first

/-- `detect_faces` (`cut.py` lines 7-14) on the list of rectangles the
cascade returned: the largest face when any were found, else `none`. -/
def detect_faces (faces : List Rect) : Option Rect :=
  match faces with
  | [] => none
  | f :: fs => some (max_face f fs)

/-- `get_focus_box` (`cut.py` lines 28-33): the detected face if any,
otherwise the saliency result. -/
def get_focus_box (faces : List Rect) (saliency : Option Rect) : Option Rect :=
  match detect_faces faces with
  | some f => some f
  | none => saliency

/-- Outcome of the crop/resize stage of `process_image`: either the whole
image stretched to the output size (undersized-source branch, lines
71-77), or a crop to `region` followed by a resize to the output size
(lines 79-98).  In both branches the code resizes to `target_size`. -/
inductive ProcResult where
  | stretched (out_size : ℤ × ℤ)
  | cropped (region : Rect) (out_size : ℤ × ℤ)
  deriving DecidableEq, Repr

/-- The pure planning core of `process_image` (`cut.py` lines 67-95),
with the focus box (the result of `get_focus_box`) passed as data: if the
image is smaller than the target in either dimension, resize the whole
image to the target; otherwise crop to the planned region and resize to
the target. -/
def process_image_plan (image_size target_size : ℤ × ℤ) (focus : Option Rect) : ProcResult :=
  if image_size.1 < target_size.1 ∨ image_size.2 < target_size.2 then
    ProcResult.stretched target_size
  else
    ProcResult.cropped (plan_crop focus image_size target_size) target_size

instance (a b : ℤ × ℤ) (f : Option Rect) (r : ProcResult) :
    Decidable (process_image_plan a b f = r) := by
  unfold process_image_plan; infer_instance

/-- Decoded content of an image file: its dimensions and the focus box
detection would return on it. -/
structure ImageFile where
  dims : ℤ × ℤ
  focus : Option Rect
  deriving DecidableEq

/-- Per-image outcome observed by the batch: a successful crop/resize, or
the logged failure of the `except` block of `process_image` (`cut.py`
lines 100-101). -/
inductive BatchOutcome where
  | ok (result : ProcResult)
  | logged_failure
  deriving DecidableEq, Repr

/-- `true` exactly on successful outcomes. -/
def batch_ok (o : BatchOutcome) : Bool :=
  match o with
  | .ok _ => true
  | .logged_failure => false

/-- `true` exactly on logged failures. -/
def batch_failed (o : BatchOutcome) : Bool :=
  match o with
  | .ok _ => false
  | .logged_failure => true

/-- One `process_image` call (`cut.py` lines 59-105): an undecodable file
(`cv2.imread` returning `None`) raises `ValueError`, which the
`except Exception` block catches and logs, so the call itself always
returns; a decodable file goes through the planning core. -/
def process_image_run (decode : String → Option ImageFile) (target : ℤ × ℤ)
    (path : String) : BatchOutcome :=
  match decode path with
  | none => BatchOutcome.logged_failure
  | some img => BatchOutcome.ok (process_image_plan img.dims target img.focus)

/-- The per-file loop of `bulk_process` (`cut.py` lines 121-125): each
discovered path is handed to `process_image` in turn; the loop itself
never raises because `process_image` never does. -/
def bulk_process_outcomes (decode : String → Option ImageFile) (target : ℤ × ℤ)
    (files : List String) : List BatchOutcome :=
  files.map (process_image_run decode target)

/-! ### Arithmetic helper lemmas -/

lemma pytrunc_of_nonneg {q : ℚ} (h : 0 ≤ q) : pytrunc q = ⌊q⌋ := by
  unfold pytrunc
  rw [if_neg (not_lt.2 h)]

lemma pytrunc_intCast (n : ℤ) : pytrunc (n : ℚ) = n := by
  unfold pytrunc
  split
  · rw [Int.ceil_intCast]
  · rw [Int.floor_intCast]

lemma clamp_pytrunc_eq_clamp_floor (q : ℚ) (d : ℤ) (hd : 0 ≤ d) :
    max 0 (min (pytrunc q) d) = max 0 (min ⌊q⌋ d) := by
  unfold pytrunc
  split
  · next hq =>
    have h1 : ⌈q⌉ ≤ 0 := Int.ceil_le.2 (by exact_mod_cast hq.le)
    have h2 : ⌊q⌋ ≤ 0 := Int.floor_nonpos hq.le
    omega
  · rfl

/-- Unconditional shape of `calculate_crop_region`: nonnegative origin,
extent `min target image` per dimension, fully inside the image. -/
lemma calculate_crop_region_shape (f : Rect) (W H tw th : ℤ) :
    (calculate_crop_region f (W, H) (tw, th)).w = min tw W ∧
    (calculate_crop_region f (W, H) (tw, th)).h = min th H ∧
    rect_in_bounds (calculate_crop_region f (W, H) (tw, th)) W H := by
  simp only [calculate_crop_region, rect_in_bounds, true_and]
  omega

/-- Shape of the inline center-crop fallback when the image is at least
target-sized: extent exactly the target, fully inside the image. -/
lemma center_crop_fallback_shape (W H tw th : ℤ) (hW : tw ≤ W) (hH : th ≤ H) :
    (center_crop_fallback (W, H) (tw, th)).w = tw ∧
    (center_crop_fallback (W, H) (tw, th)).h = th ∧
    rect_in_bounds (center_crop_fallback (W, H) (tw, th)) W H := by
  simp only [center_crop_fallback, rect_in_bounds, true_and]
  omega

/-- C1: for every image size `(W,H)` and target size with
`0 < target_w ≤ W` and `0 < target_h ≤ H`, and every subject input
(a rectangle or `none`), `plan_crop` returns a rectangle fully contained
in `[0,W) × [0,H)` whose extent is exactly `target_w × target_h`. -/
theorem plan_crop_in_bounds_exact_extent (subject : Option Rect) (W H tw th : ℤ)
    (htw : 0 < tw) (hW : tw ≤ W) (hth : 0 < th) (hH : th ≤ H) :
    rect_in_bounds (plan_crop subject (W, H) (tw, th)) W H ∧
    (plan_crop subject (W, H) (tw, th)).w = tw ∧
    (plan_crop subject (W, H) (tw, th)).h = th := by
  match subject with
  | some f =>
    obtain ⟨h1, h2, h3⟩ := calculate_crop_region_shape f W H tw th
    refine ⟨h3, ?_, ?_⟩ <;> simp only [plan_crop] <;> omega
  | none =>
    obtain ⟨h1, h2, h3⟩ := center_crop_fallback_shape W H tw th hW hH
    exact ⟨h3, h1, h2⟩

/-- C1 witness: concrete subject `(10, 20, 50, 60)` on an `800 × 600`
image with target `256 × 128`. -/
theorem plan_crop_in_bounds_exact_extent_witness :
    rect_in_bounds (plan_crop (some ⟨10, 20, 50, 60⟩) (800, 600) (256, 128)) 800 600 ∧
    (plan_crop (some ⟨10, 20, 50, 60⟩) (800, 600) (256, 128)).w = 256 ∧
    (plan_crop (some ⟨10, 20, 50, 60⟩) (800, 600) (256, 128)).h = 128 :=
  plan_crop_in_bounds_exact_extent (some ⟨10, 20, 50, 60⟩) 800 600 256 128
    (by decide) (by decide) (by decide) (by decide)

/-- C8: for every focus rectangle with integer coordinates (in bounds or
not) and every positive image and target size, `calculate_crop_region`
returns a rectangle with nonnegative origin, extent exactly
`(min target_w W, min target_h H)`, lying fully inside the source image. -/
theorem calculate_crop_region_defensive (f : Rect) (W H tw th : ℤ)
    (hW : 0 < W) (hH : 0 < H) (htw : 0 < tw) (hth : 0 < th) :
    0 ≤ (calculate_crop_region f (W, H) (tw, th)).x ∧
    0 ≤ (calculate_crop_region f (W, H) (tw, th)).y ∧
    (calculate_crop_region f (W, H) (tw, th)).w = min tw W ∧
    (calculate_crop_region f (W, H) (tw, th)).h = min th H ∧
    rect_in_bounds (calculate_crop_region f (W, H) (tw, th)) W H := by
  obtain ⟨h1, h2, h3⟩ := calculate_crop_region_shape f W H tw th
  exact ⟨h3.1, h3.2.1, h1, h2, h3⟩

/-- C8 witness: a focus box sticking out past the top-left corner, on a
`100 × 80` image with an oversized target width `200 × 50`. -/
theorem calculate_crop_region_defensive_witness :
    0 ≤ (calculate_crop_region ⟨-50, -20, 30, 40⟩ (100, 80) (200, 50)).x ∧
    0 ≤ (calculate_crop_region ⟨-50, -20, 30, 40⟩ (100, 80) (200, 50)).y ∧
    (calculate_crop_region ⟨-50, -20, 30, 40⟩ (100, 80) (200, 50)).w = min 200 100 ∧
    (calculate_crop_region ⟨-50, -20, 30, 40⟩ (100, 80) (200, 50)).h = min 50 80 ∧
    rect_in_bounds (calculate_crop_region ⟨-50, -20, 30, 40⟩ (100, 80) (200, 50)) 100 80 :=
  calculate_crop_region_defensive ⟨-50, -20, 30, 40⟩ 100 80 200 50
    (by decide) (by decide) (by decide) (by decide)

/-- C9 counterexample: with no subject and a target larger than the
image, the planner's no-subject branch keeps the raw target extent, so
on a `100 × 100` image with target `200 × 200` the output width is `200`,
not `min 200 100 = 100`, and the rectangle is not inside the image. -/
theorem plan_crop_none_oversized_cex :
    (0 : ℤ) < 100 ∧ (0 : ℤ) < 200 ∧
    (plan_crop none (100, 100) (200, 200)).w ≠ min 200 100 ∧
    ¬ rect_in_bounds (plan_crop none (100, 100) (200, 200)) 100 100 := by
  refine ⟨by norm_num, by norm_num, ?_, ?_⟩ <;>
    simp only [plan_crop, center_crop_fallback, pytrunc, rect_in_bounds] <;> norm_num

/-- C9 amended: the CropRegion guarantee (`w = min target_w W`,
`h = min target_h H`, rectangle fully inside the source image) holds for
every subject rectangle at every positive image/target size, and for
`subject = none` under the additional condition `target_w ≤ W` and
`target_h ≤ H`, which `process_image` guarantees upstream via its
undersized-source branch. -/
theorem plan_crop_crop_region_guarantee (subject : Option Rect) (W H tw th : ℤ)
    (hW : 0 < W) (hH : 0 < H) (htw : 0 < tw) (hth : 0 < th)
    (hnone : subject = none → tw ≤ W ∧ th ≤ H) :
    (plan_crop subject (W, H) (tw, th)).w = min tw W ∧
    (plan_crop subject (W, H) (tw, th)).h = min th H ∧
    rect_in_bounds (plan_crop subject (W, H) (tw, th)) W H := by
  match subject with
  | some f =>
    exact calculate_crop_region_shape f W H tw th
  | none =>
    obtain ⟨hwW, hhH⟩ := hnone rfl
    obtain ⟨h1, h2, h3⟩ := center_crop_fallback_shape W H tw th hwW hhH
    refine ⟨?_, ?_, h3⟩ <;> simp only [plan_crop] <;> omega

/-- C9 witness: no subject on a `1000 × 1000` image with target
`400 × 300`. -/
theorem plan_crop_crop_region_guarantee_witness :
    (plan_crop none (1000, 1000) (400, 300)).w = min 400 1000 ∧
    (plan_crop none (1000, 1000) (400, 300)).h = min 300 1000 ∧
    rect_in_bounds (plan_crop none (1000, 1000) (400, 300)) 1000 1000 :=
  plan_crop_crop_region_guarantee none 1000 1000 400 300
    (by decide) (by decide) (by decide) (by decide) (fun _ => by decide)

/-- C2: with `0 < target_w ≤ W` and `0 < target_h ≤ H`, the origin
returned by `calculate_crop_region` equals
`clamp (⌊cx - target_w/2⌋) 0 (W - target_w)` in x and the analogue in y,
where `(cx, cy)` is the real-number midpoint of the subject rectangle
(Python's toward-zero `int()` and the spec's `floor` agree after the
clamp). -/
theorem calculate_crop_region_origin_eq_clamp_floor (f : Rect) (W H tw th : ℤ)
    (htw : 0 < tw) (hW : tw ≤ W) (hth : 0 < th) (hH : th ≤ H) :
    (calculate_crop_region f (W, H) (tw, th)).x
      = clamp ⌊rect_center_x f - (tw : ℚ) / 2⌋ 0 (W - tw) ∧
    (calculate_crop_region f (W, H) (tw, th)).y
      = clamp ⌊rect_center_y f - (th : ℚ) / 2⌋ 0 (H - th) := by
  constructor <;>
  · simp only [calculate_crop_region, rect_center_x, rect_center_y, clamp]
    exact clamp_pytrunc_eq_clamp_floor _ _ (by omega)

/-- C2 witness: a subject with real-number center `(5, 5)` on a
`1000 × 1000` image with target `200 × 200`; the clamp evaluates to the
origin `(0, 0)`, never negative. -/
theorem calculate_crop_region_origin_eq_clamp_floor_witness :
    ((calculate_crop_region ⟨0, 0, 10, 10⟩ (1000, 1000) (200, 200)).x
        = clamp ⌊rect_center_x ⟨0, 0, 10, 10⟩ - (200 : ℚ) / 2⌋ 0 (1000 - 200) ∧
      (calculate_crop_region ⟨0, 0, 10, 10⟩ (1000, 1000) (200, 200)).y
        = clamp ⌊rect_center_y ⟨0, 0, 10, 10⟩ - (200 : ℚ) / 2⌋ 0 (1000 - 200)) ∧
    clamp ⌊rect_center_x ⟨0, 0, 10, 10⟩ - (200 : ℚ) / 2⌋ 0 (1000 - 200) = 0 ∧
    clamp ⌊rect_center_y ⟨0, 0, 10, 10⟩ - (200 : ℚ) / 2⌋ 0 (1000 - 200) = 0 :=
  ⟨calculate_crop_region_origin_eq_clamp_floor ⟨0, 0, 10, 10⟩ 1000 1000 200 200
      (by decide) (by decide) (by decide) (by decide),
    by simp only [rect_center_x, rect_center_y, clamp]; norm_num,
    by simp only [rect_center_x, rect_center_y, clamp]; norm_num⟩

/-- C6: with no subject detected, the planner uses the image's geometric
center: `plan_crop none (1000, 1000) (400, 300)` returns origin
`(300, 350)` and extent `(400, 300)`. -/
theorem plan_crop_no_subject_center : plan_crop none (1000, 1000) (400, 300)
    = ⟨300, 350, 400, 300⟩ := by
  simp only [plan_crop, center_crop_fallback, pytrunc]
  norm_num

/-- C10: when `target_w ≤ W` and `target_h ≤ H`, the inlined center-crop
fallback of `process_image` computes exactly the same rectangle as
`calculate_crop_region` applied to the full-image rectangle
`(0, 0, W, H)`. -/
theorem center_crop_fallback_refines_full_rect (W H tw th : ℤ)
    (hW : tw ≤ W) (hH : th ≤ H) :
    center_crop_fallback (W, H) (tw, th)
      = calculate_crop_region ⟨0, 0, W, H⟩ (W, H) (tw, th) := by
  simp only [center_crop_fallback, calculate_crop_region, Int.cast_zero, zero_add,
    Rect.mk.injEq]
  refine ⟨trivial, trivial, by omega, by omega⟩

/-- C10 witness: `1000 × 1000` image with target `400 × 300`. -/
theorem center_crop_fallback_refines_full_rect_witness :
    center_crop_fallback (1000, 1000) (400, 300)
      = calculate_crop_region ⟨0, 0, 1000, 1000⟩ (1000, 1000) (400, 300) :=
  center_crop_fallback_refines_full_rect 1000 1000 400 300 (by decide) (by decide)

/-- C3 counterexample: the subject `(10, 10, 3, 3)` has real-number
center `(11.5, 11.5)`, at distance at least `2 = 4/2` from every edge of
a `100 × 100` image, yet with target `4 × 4` the planner returns the crop
`(9, 9, 4, 4)` with center `(11, 11)`: flooring the half-integer
candidate origin shifts the center by `1/2`, so it is not preserved
exactly. -/
theorem plan_crop_centering_cex :
    (4 : ℚ) / 2 ≤ rect_center_x ⟨10, 10, 3, 3⟩ ∧
    rect_center_x ⟨10, 10, 3, 3⟩ ≤ (100 : ℚ) - 4 / 2 ∧
    (4 : ℚ) / 2 ≤ rect_center_y ⟨10, 10, 3, 3⟩ ∧
    rect_center_y ⟨10, 10, 3, 3⟩ ≤ (100 : ℚ) - 4 / 2 ∧
    (4 : ℤ) ≤ 100 ∧
    rect_center_x (plan_crop (some ⟨10, 10, 3, 3⟩) (100, 100) (4, 4))
      ≠ rect_center_x ⟨10, 10, 3, 3⟩ := by
  refine ⟨by norm_num [rect_center_x], by norm_num [rect_center_x],
    by norm_num [rect_center_y], by norm_num [rect_center_y], by norm_num, ?_⟩
  simp only [plan_crop, calculate_crop_region, pytrunc, rect_center_x]
  norm_num

/-- C3 amended: under the stated edge-distance condition (written in the
equivalent integer form `target ≤ 2·origin + extent ≤ 2·image − target`)
and the extra parity condition that subject extent and target extent
differ by an even amount in each dimension — which makes the candidate
origin an exact integer, so the floor drops nothing — the center of the
returned crop equals the subject's center exactly.  Without the parity
condition the center shifts by `1/2` (see the counterexample). -/
theorem plan_crop_centering_parity (f : Rect) (W H tw th : ℤ)
    (htw : 0 < tw) (hW : tw ≤ W) (hth : 0 < th) (hH : th ≤ H)
    (hx1 : tw ≤ 2 * f.x + f.w) (hx2 : 2 * f.x + f.w ≤ 2 * W - tw)
    (hy1 : th ≤ 2 * f.y + f.h) (hy2 : 2 * f.y + f.h ≤ 2 * H - th)
    (hpx : (f.w - tw) % 2 = 0) (hpy : (f.h - th) % 2 = 0) :
    rect_center_x (plan_crop (some f) (W, H) (tw, th)) = rect_center_x f ∧
    rect_center_y (plan_crop (some f) (W, H) (tw, th)) = rect_center_y f := by
  obtain ⟨k, hk⟩ : ∃ k, f.w = tw + 2 * k := ⟨(f.w - tw) / 2, by omega⟩
  obtain ⟨l, hl⟩ : ∃ l, f.h = th + 2 * l := ⟨(f.h - th) / 2, by omega⟩
  have hargx : (f.x : ℚ) + (f.w : ℚ) / 2 - (tw : ℚ) / 2 = ((f.x + k : ℤ) : ℚ) := by
    rw [hk]; push_cast; ring
  have hargy : (f.y : ℚ) + (f.h : ℚ) / 2 - (th : ℚ) / 2 = ((f.y + l : ℤ) : ℚ) := by
    rw [hl]; push_cast; ring
  have htx : pytrunc ((f.x : ℚ) + (f.w : ℚ) / 2 - (tw : ℚ) / 2) = f.x + k := by
    rw [hargx, pytrunc_intCast]
  have hty : pytrunc ((f.y : ℚ) + (f.h : ℚ) / 2 - (th : ℚ) / 2) = f.y + l := by
    rw [hargy, pytrunc_intCast]
  have hcx : max 0 (min (f.x + k) (W - tw)) = f.x + k := by omega
  have hcy : max 0 (min (f.y + l) (H - th)) = f.y + l := by omega
  have hmw : min tw W = tw := by omega
  have hmh : min th H = th := by omega
  constructor
  · simp only [plan_crop, calculate_crop_region, rect_center_x]
    rw [htx, hcx, hmw, hk]
    push_cast
    ring
  · simp only [plan_crop, calculate_crop_region, rect_center_y]
    rw [hty, hcy, hmh, hl]
    push_cast
    ring

/-- C3 witness: subject `(10, 10, 4, 4)` (center `(12, 12)`, extent of
the same parity as the `4 × 4` target) on a `100 × 100` image: the crop
center equals the subject center exactly. -/
theorem plan_crop_centering_parity_witness :
    rect_center_x (plan_crop (some ⟨10, 10, 4, 4⟩) (100, 100) (4, 4))
      = rect_center_x ⟨10, 10, 4, 4⟩ ∧
    rect_center_y (plan_crop (some ⟨10, 10, 4, 4⟩) (100, 100) (4, 4))
      = rect_center_y ⟨10, 10, 4, 4⟩ :=
  plan_crop_centering_parity ⟨10, 10, 4, 4⟩ 100 100 4 4
    (by decide) (by decide) (by decide) (by decide)
    (by decide) (by decide) (by decide) (by decide) (by decide) (by decide)

/-- C4: when the image is smaller than the target in either dimension,
`process_image` takes the undersized-source branch: no subject detection
or crop planning happens and the whole image is resized directly to the
target size (the `stretched` outcome, distinct by constructor from every
`cropped` outcome). -/
theorem process_image_plan_undersized (W H tw th : ℤ) (focus : Option Rect)
    (h : W < tw ∨ H < th) :
    process_image_plan (W, H) (tw, th) focus = ProcResult.stretched (tw, th) := by
  simp only [process_image_plan]
  rw [if_pos h]

/-- C4 witness: a `300 × 300` image with target `1024 × 1024` is
stretched to exactly `1024 × 1024` and never cropped. -/
theorem process_image_plan_undersized_witness :
    process_image_plan (300, 300) (1024, 1024) none
      = ProcResult.stretched (1024, 1024) :=
  process_image_plan_undersized 300 300 1024 1024 none (by decide)

/-- Counting lemma for the batch loop: outcomes are one per input file,
successes are exactly the decodable files, logged failures exactly the
undecodable ones, and the two kinds partition the batch. -/
lemma bulk_process_counts (decode : String → Option ImageFile) (target : ℤ × ℤ)
    (files : List String) :
    (bulk_process_outcomes decode target files).length = files.length ∧
    (bulk_process_outcomes decode target files).countP batch_ok
      = files.countP (fun p => (decode p).isSome) ∧
    (bulk_process_outcomes decode target files).countP batch_failed
      = files.countP (fun p => (decode p).isNone) ∧
    files.countP (fun p => (decode p).isSome)
        + files.countP (fun p => (decode p).isNone)
      = files.length := by
  induction files with
  | nil => simp [bulk_process_outcomes]
  | cons p ps ih =>
    obtain ⟨ih1, ih2, ih3, ih4⟩ := ih
    simp only [bulk_process_outcomes, List.map_cons, List.countP_cons,
      List.length_cons] at ih1 ih2 ih3 ih4 ⊢
    cases hd : decode p <;>
      simp only [process_image_run, hd, batch_ok, batch_failed, Option.isSome_none,
        Option.isNone_none, Option.isSome_some, Option.isNone_some, if_true, if_false,
        Bool.false_eq_true, reduceIte] <;>
      omega

/-- C5: no failure of a single image escapes the batch loop — each input
file yields exactly one outcome — and a batch whose files split into nine
decodable and one undecodable produces exactly nine successful outcomes
and one logged failure. -/
theorem bulk_process_isolation (decode : String → Option ImageFile)
    (target : ℤ × ℤ) (files : List String)
    (h_ok : files.countP (fun p => (decode p).isSome) = 9)
    (h_bad : files.countP (fun p => (decode p).isNone) = 1) :
    (bulk_process_outcomes decode target files).countP batch_ok = 9 ∧
    (bulk_process_outcomes decode target files).countP batch_failed = 1 ∧
    (bulk_process_outcomes decode target files).length = files.length ∧
    files.length = 10 := by
  obtain ⟨h1, h2, h3, h4⟩ := bulk_process_counts decode target files
  exact ⟨by omega, by omega, h1, by omega⟩

/-- A concrete decoder for the C5 witness: every file decodes to a
`1000 × 1000` image except `bad.jpg`, which is undecodable. -/
def demo_decode (p : String) : Option ImageFile :=
  if p = "bad.jpg" then none else some ⟨(1000, 1000), none⟩

/-- The concrete ten-file batch for the C5 witness. -/
def demo_files : List String :=
  ["a1.jpg", "a2.jpg", "a3.jpg", "a4.jpg", "a5.jpg",
   "a6.jpg", "a7.jpg", "a8.jpg", "a9.jpg", "bad.jpg"]

/-- C5 witness: the concrete ten-file batch with one undecodable file
yields nine successes and one logged failure, one outcome per file. -/
theorem bulk_process_isolation_witness :
    (bulk_process_outcomes demo_decode (1024, 1024) demo_files).countP batch_ok = 9 ∧
    (bulk_process_outcomes demo_decode (1024, 1024) demo_files).countP batch_failed = 1 ∧
    (bulk_process_outcomes demo_decode (1024, 1024) demo_files).length
      = demo_files.length ∧
    demo_files.length = 10 :=
  bulk_process_isolation demo_decode (1024, 1024) demo_files (by decide) (by decide)

/-- `max_face first rest` is one of `first :: rest`, is at least as large
as `first`, and at least as large as every element of `rest` — the
invariant of Python's `max(..., key=...)` fold. -/
lemma max_face_spec (rest : List Rect) : ∀ first : Rect,
    (max_face first rest = first ∨ max_face first rest ∈ rest) ∧
    face_area first ≤ face_area (max_face first rest) ∧
    ∀ g ∈ rest, face_area g ≤ face_area (max_face first rest) := by
  induction rest with
  | nil =>
    intro first
    refine ⟨Or.inl rfl, le_refl _, ?_⟩
    intro g hg
    exact absurd hg (List.not_mem_nil g)
  | cons r rs ih =>
    intro first
    have hstep : max_face first (r :: rs)
        = max_face (if face_area first < face_area r then r else first) rs := rfl
    rw [hstep]
    by_cases h : face_area first < face_area r
    · rw [if_pos h]
      obtain ⟨m1, m2, m3⟩ := ih r
      refine ⟨?_, le_trans h.le m2, ?_⟩
      · rcases m1 with e | e
        · exact Or.inr (by rw [e]; exact List.mem_cons_self r rs)
        · exact Or.inr (List.mem_cons_of_mem r e)
      · intro g hg
        rcases List.mem_cons.mp hg with e | e
        · rw [e]; exact m2
        · exact m3 g e
    · rw [if_neg h]
      obtain ⟨m1, m2, m3⟩ := ih first
      refine ⟨?_, m2, ?_⟩
      · rcases m1 with e | e
        · exact Or.inl e
        · exact Or.inr (List.mem_cons_of_mem r e)
      · intro g hg
        rcases List.mem_cons.mp hg with e | e
        · rw [e]; exact le_trans (not_lt.mp h) m2
        · exact m3 g e

/-- C7: whenever the face cascade returned more than one rectangle, the
focus box handed to crop planning is a face of maximal area `w * h`
among them (the earliest maximal one, matching Python's `max`). -/
theorem get_focus_box_largest_face (faces : List Rect) (saliency : Option Rect)
    (h : 1 < faces.length) :
    ∃ r, get_focus_box faces saliency = some r ∧ r ∈ faces ∧
      ∀ g ∈ faces, face_area g ≤ face_area r := by
  match faces with
  | [] => simp at h
  | f :: fs =>
    obtain ⟨m1, m2, m3⟩ := max_face_spec fs f
    refine ⟨max_face f fs, rfl, ?_, ?_⟩
    · rcases m1 with e | e
      · rw [e]; exact List.mem_cons_self f fs
      · exact List.mem_cons_of_mem f e
    · intro g hg
      rcases List.mem_cons.mp hg with e | e
      · rw [e]; exact m2
      · exact m3 g e

/-- C7 witness: two faces of areas `100` and `400`; the planner's subject
is the area-400 rectangle `(50, 50, 20, 20)`. -/
theorem get_focus_box_largest_face_witness :
    (1 < ([⟨0, 0, 10, 10⟩, ⟨50, 50, 20, 20⟩] : List Rect).length ∧
      ∃ r, get_focus_box [⟨0, 0, 10, 10⟩, ⟨50, 50, 20, 20⟩] none = some r ∧
        r ∈ ([⟨0, 0, 10, 10⟩, ⟨50, 50, 20, 20⟩] : List Rect) ∧
        ∀ g ∈ ([⟨0, 0, 10, 10⟩, ⟨50, 50, 20, 20⟩] : List Rect),
          face_area g ≤ face_area r) ∧
    get_focus_box [⟨0, 0, 10, 10⟩, ⟨50, 50, 20, 20⟩] none = some ⟨50, 50, 20, 20⟩ :=
  ⟨⟨by decide, get_focus_box_largest_face [⟨0, 0, 10, 10⟩, ⟨50, 50, 20, 20⟩] none
      (by decide)⟩, by decide⟩
